import Mathlib

/-!
The template client and the subscribers table of news-maily.

A shallow embedding of

* `resources/assets/js/entities/template.js` (the `Template` request builders), and
* `resources/assets/js/components/sub-lists/subscribers-table.jsx`
  (`DeleteButton`, `SubscriberRow`, `SubscribersTable`),

followed by the properties proved about them.

The browser is modelled as a `World` that is changed by events (a form submit, a button of
the dialog, the resolution of a pending request, a `page` event of the pagination control).
Each closure of the source is a constructor of a small callback type and its body is a
function on worlds.
-/

namespace NewsMaily

/-! ## Part 1. `entities/template.js` -/

/-- JavaScript values that can be handed to the template client. Numbers are the
integer-valued ones (identifiers, page numbers), for which `ToString` is the decimal numeral. -/
inductive JSVal where
  | undefined
  | null
  | bool (b : Bool)
  | num (n : Int)
  | str (s : String)
  | obj (fields : List (String × JSVal))

/-- The `ToString` conversion applied by `+` when its left operand is a string. A plain
object converts to `[object Object]`. -/
def JSVal.toJSString : JSVal → String
  | .undefined => "undefined"
  | .null => "null"
  | .bool true => "true"
  | .bool false => "false"
  | .num n => toString n
  | .str s => s
  | .obj _ => "[object Object]"

/-- The failure of a property read on `null` or `undefined`. -/
inductive JSError where
  | typeError
deriving DecidableEq

/-- Property read `v.key` for the two keys this program reads, `name` and `content`:
the own field of an object when present, `undefined` when absent (neither key is defined
on the prototypes of plain objects, booleans, numbers or strings), and a `TypeError` on
`null` and `undefined`. -/
def JSVal.getProp (v : JSVal) (key : String) : Except JSError JSVal :=
  match v with
  | .undefined => .error .typeError
  | .null => .error .typeError
  | .obj fields => .ok ((fields.lookup key).getD .undefined)
  | _ => .ok .undefined

/-- The settings object handed to `$.ajax`. `data` is the list of the fields of the `data`
object in the order in which the literal writes them, `none` when the key is absent. -/
structure AjaxSettings where
  type : String
  url : String
  data : Option (List (String × JSVal))
  dataType : String

/-- The requests issued so far, oldest first. -/
abbrev Network := List AjaxSettings

/-- The call `$.ajax(settings)`: issues one request and returns its handle. -/
def ajax (settings : AjaxSettings) (net : Network) : Nat × Network :=
  (net.length, net ++ [settings])

/-- An instance of `Template`: the local `url` captured by its four closures. -/
structure Template where
  url : String

/-- The constructor `new Template()`, run while the global `url_base` has the given value:
`var url = url_base + '/api/templates'`. -/
def Template.new (url_base : String) : Template :=
  { url := url_base ++ "/api/templates" }

/-- The method `all(paginate, perPage, page)`. -/
def Template.all (t : Template) (paginate perPage page : JSVal) (net : Network) :
    Nat × Network :=
  ajax
    { type := "GET"
      url := t.url
      data := some [("paginate", paginate), ("per_page", perPage), ("page", page)]
      dataType := "json" } net

/-- The method `create(data)`. The two property reads come first; either throws when `data`
is `null` or `undefined`, and then no request is issued. -/
def Template.create (t : Template) (data : JSVal) (net : Network) :
    Except JSError (Nat × Network) := do
  let name ← data.getProp "name"
  let content ← data.getProp "content"
  pure (ajax
    { type := "POST"
      url := t.url
      data := some [("name", name), ("content", content)]
      dataType := "json" } net)

/-- Modelled from the spec: the query-string form `k1=v1&k2=v2` in which the spec writes the
query parameters of a request (the transport library that serialises them is not among the
sources). Values are written with `ToString`; percent-encoding is not modelled. -/
def queryString (params : List (String × JSVal)) : String :=
  "&".intercalate (params.map fun p => p.1 ++ "=" ++ p.2.toJSString)

/-! ## Part 2. `components/sub-lists/subscribers-table.jsx` -/

/-- A subscriber as the server sends it. -/
structure Subscriber where
  id : Nat
  name : String
  email : String
deriving DecidableEq

/-- A response of `getSubscribers`: one page of subscribers with its position. -/
structure Page where
  data : List Subscriber
  current_page : Nat
  last_page : Nat
deriving DecidableEq

/-- The object held in `state.subscribers`. The literal of `getInitialState` has the field
`data` only; a stored response has all three. -/
structure PageObject where
  data : List Subscriber
  current_page : Option Nat
  last_page : Option Nat
deriving DecidableEq

/-- A response, seen as the object that `setState` stores. -/
def Page.toObject (r : Page) : PageObject :=
  { data := r.data, current_page := some r.current_page, last_page := some r.last_page }

/-- The props of a `DeleteButton`. -/
structure DeleteButtonProps where
  sid : Nat
deriving DecidableEq

/-- An instance of the component `DeleteButton`. -/
structure DeleteButton where
  props : DeleteButtonProps
deriving DecidableEq

/-- The functions passed to `swal` as its second argument. -/
inductive SwalCallback where
  /-- Lines 22 to 36: `function () { l.deleteSubscriber(this.props.sid)... }.bind(this)`. -/
  | confirmDelete (self : DeleteButton)
  /-- Lines 29 to 31: `function () { location.reload(); }`. -/
  | reloadPage
deriving DecidableEq

/-- The functions passed to `.done`. -/
inductive DoneCallback where
  /-- Lines 24 to 32, on the request of `deleteSubscriber`. -/
  | deleteDone
  /-- Lines 67 to 79, on the fetch of `componentDidMount`. -/
  | mountDone
  /-- Lines 74 to 77, on the fetch of the `page` handler. -/
  | pageDone
deriving DecidableEq

/-- The functions passed to `.fail`. -/
inductive FailCallback where
  /-- Lines 33 to 35. -/
  | deleteFail
deriving DecidableEq

/-- The functions passed to `.on("page", ...)`. -/
inductive PageHandler where
  /-- Lines 73 to 78. -/
  | onPage
deriving DecidableEq

/-- The options object of a `swal` call; a key the call leaves out has its default
(no cancel button, close on confirm). -/
structure SwalOptions where
  title : String
  text : String
  type : String
  showCancelButton : Bool
  confirmButtonColor : Option String
  confirmButtonText : Option String
  closeOnConfirm : Bool
deriving DecidableEq

/-- The dialog on display: the options and the callback of the `swal` call that opened it. -/
structure Dialog where
  options : SwalOptions
  callback : Option SwalCallback
deriving DecidableEq

/-- A call of the list client `l`. -/
inductive ListCall where
  | getSubscribers (listId : Nat) (paginate : Bool) (perPage : Nat) (page : Nat)
  | deleteSubscriber (id : Nat)
deriving DecidableEq

/-- The state of a pending result. -/
inductive Status where
  | pending
  | resolved
  | rejected
deriving DecidableEq

/-- The pending result returned by a call of the list client, with the callbacks registered
on it. -/
structure Request where
  call : ListCall
  status : Status
  onDone : List DoneCallback
  onFail : List FailCallback
deriving DecidableEq

/-- The options object of a `bootpag` call, `none` for a key that is left out. -/
structure BootpagOptions where
  total : Option Nat
  page : Option Nat
  maxVisible : Option Nat
deriving DecidableEq

/-- The element `$('.pagination')`: the settings of the pagination control (`none` until the
first `bootpag` call) and the handlers of its `page` event. The current page the control
displays is the `page` of its settings. -/
structure Pagination where
  settings : Option BootpagOptions
  pageHandlers : List PageHandler
deriving DecidableEq

/-- The browser state the component acts on. The last two fields only record history: the
fetches that resolved, with their responses, and the responses written by `setState`, both
oldest first. -/
structure World where
  listId : Nat
  subscribers : PageObject
  dialog : Option Dialog
  requests : List Request
  pagination : Pagination
  reloads : Nat
  resolvedFetches : List (Nat × Page)
  setStates : List Page
deriving DecidableEq

/-- The value `{subscribers: {data: []}}` of `getInitialState`. -/
def SubscribersTable.getInitialState : PageObject :=
  { data := [], current_page := none, last_page := none }

/-- A freshly constructed `SubscribersTable` with `props.listId = listId`, before it mounts. -/
def World.init (listId : Nat) : World :=
  { listId := listId
    subscribers := SubscribersTable.getInitialState
    dialog := none
    requests := []
    pagination := { settings := none, pageHandlers := [] }
    reloads := 0
    resolvedFetches := []
    setStates := [] }

/-! ### The libraries the component calls -/

/-- Modelled from the spec: `entities/list.js` is not among the sources. By section 4.1 a call
of the list client issues one request and returns a pending result; here the result is the
index of the request in the log. -/
def listCall (c : ListCall) (w : World) : Nat × World :=
  (w.requests.length,
    { w with requests := w.requests ++ [{ call := c, status := .pending, onDone := [], onFail := [] }] })

/-- Registers a callback for the success of request `req`. -/
def onDone (req : Nat) (cb : DoneCallback) (w : World) : World :=
  match w.requests[req]? with
  | none => w
  | some r => { w with requests := w.requests.set req { r with onDone := r.onDone ++ [cb] } }

/-- Registers a callback for the failure of request `req`. -/
def onFail (req : Nat) (cb : FailCallback) (w : World) : World :=
  match w.requests[req]? with
  | none => w
  | some r => { w with requests := w.requests.set req { r with onFail := r.onFail ++ [cb] } }

/-- Modelled from the spec: the dialog library is not among the sources. `swal(options,
callback)` puts a dialog on display, in place of the one on display if any, and keeps the
callback for the confirm button (section 9: only on affirmative response). -/
def swal (options : SwalOptions) (callback : Option SwalCallback) (w : World) : World :=
  { w with dialog := some { options := options, callback := callback } }

/-- Modelled from the spec: the pagination library is not among the sources. The call
`$('.pagination').bootpag(options)` sets the control up on its first use and replaces the
settings whose keys are given (section 4.2: the control is set up with `total` and `page`, and
its current-page indicator is updated). -/
def bootpag (o : BootpagOptions) (w : World) : World :=
  let s := w.pagination.settings.getD { total := none, page := none, maxVisible := none }
  let merged : BootpagOptions :=
    { total := o.total <|> s.total
      page := o.page <|> s.page
      maxVisible := o.maxVisible <|> s.maxVisible }
  { w with pagination := { w.pagination with settings := some merged } }

/-- The call `.on("page", handler)` on `$('.pagination')`. -/
def onPageEvent (h : PageHandler) (w : World) : World :=
  { w with pagination := { w.pagination with pageHandlers := w.pagination.pageHandlers ++ [h] } }

/-- The call `location.reload()`, counted. -/
def locationReload (w : World) : World :=
  { w with reloads := w.reloads + 1 }

/-- The call `this.setState({subscribers: response})` of the table. -/
def setState (response : Page) (w : World) : World :=
  { w with subscribers := response.toObject, setStates := w.setStates ++ [response] }

/-! ### `DeleteButton` -/

/-- The options of the confirmation dialog, lines 13 to 21. -/
def confirmOptions : SwalOptions :=
  { title := "Are you sure?"
    text := "You will not be able to recover this subscriber!"
    type := "warning"
    showCancelButton := true
    confirmButtonColor := some "#DD6B55"
    confirmButtonText := some "Yes, delete it!"
    closeOnConfirm := false }

/-- The options of the success dialog, lines 25 to 29. -/
def successOptions : SwalOptions :=
  { title := "Success"
    text := "The subscriber was successfully removed!"
    type := "success"
    showCancelButton := false
    confirmButtonColor := none
    confirmButtonText := none
    closeOnConfirm := true }

/-- The options of the error dialog, line 34. -/
def errorOptions : SwalOptions :=
  { title := "Could not delete"
    text := "Could not delete the subscriber. Try again."
    type := "error"
    showCancelButton := false
    confirmButtonColor := none
    confirmButtonText := none
    closeOnConfirm := true }

/-- The method `handleSubmit(e)`: after `e.preventDefault()`, which only stops the native
submission of the form, it opens the confirmation dialog. -/
def DeleteButton.handleSubmit (self : DeleteButton) (w : World) : World :=
  swal confirmOptions (some (.confirmDelete self)) w

/-- The body of the callback of the confirmation dialog, lines 23 to 35. -/
def DeleteButton.confirmed (self : DeleteButton) (w : World) : World :=
  let (req, w1) := listCall (.deleteSubscriber self.props.sid) w
  onFail req .deleteFail (onDone req .deleteDone w1)

/-- The body of the `.done` callback of the delete request, lines 25 to 31. -/
def DeleteButton.deleteDone (w : World) : World :=
  swal successOptions (some .reloadPage) w

/-- The body of the `.fail` callback of the delete request, line 34. -/
def DeleteButton.deleteFail (w : World) : World :=
  swal errorOptions none w

/-! ### `SubscribersTable` -/

/-- The method `componentDidMount()`. -/
def SubscribersTable.componentDidMount (w : World) : World :=
  let (req, w1) := listCall (.getSubscribers w.listId true 10 1) w
  onDone req .mountDone w1

/-- The body of the `.done` callback of the mount fetch, lines 68 to 78. -/
def SubscribersTable.mountDone (response : Page) (w : World) : World :=
  let w1 := setState response w
  let w2 := bootpag
    { total := some response.last_page, page := some response.current_page, maxVisible := some 5 } w1
  onPageEvent .onPage w2

/-- The body of the `page` handler, lines 74 to 77. -/
def SubscribersTable.onPage (num : Nat) (w : World) : World :=
  let (req, w1) := listCall (.getSubscribers w.listId true 10 num) w
  onDone req .pageDone w1

/-- The body of the `.done` callback of a page fetch, lines 75 and 76. -/
def SubscribersTable.pageDone (response : Page) (w : World) : World :=
  let w1 := setState response w
  bootpag { total := none, page := some response.current_page, maxVisible := none } w1

/-! ### Running callbacks -/

/-- Calls a callback of a dialog. -/
def SwalCallback.run : SwalCallback → World → World
  | .confirmDelete self => DeleteButton.confirmed self
  | .reloadPage => locationReload

/-- Calls a `.done` callback with the response. -/
def DoneCallback.run : DoneCallback → Page → World → World
  | .deleteDone, _ => DeleteButton.deleteDone
  | .mountDone, response => SubscribersTable.mountDone response
  | .pageDone, response => SubscribersTable.pageDone response

/-- Calls a `.fail` callback. -/
def FailCallback.run : FailCallback → World → World
  | .deleteFail => DeleteButton.deleteFail

/-- Calls a `page` handler with the page number of the event. -/
def PageHandler.run : PageHandler → Nat → World → World
  | .onPage, num => SubscribersTable.onPage num

/-! ### Events -/

/-- What can happen to the page once the table has mounted. -/
inductive Event where
  /-- The form of a delete button is submitted. -/
  | submit (button : DeleteButton)
  /-- The user presses the confirm button of the dialog on display. -/
  | swalConfirm
  /-- The user cancels the dialog on display. -/
  | swalCancel
  /-- The pending request `req` succeeds with `response`. -/
  | resolve (req : Nat) (response : Page)
  /-- The pending request `req` fails. -/
  | reject (req : Nat)
  /-- The pagination control emits `page` with the number `num`; only a control that has
  been set up does. -/
  | page (num : Nat)
deriving DecidableEq

/-- Whether a call is a subscriber fetch. -/
def ListCall.isFetch : ListCall → Bool
  | .getSubscribers .. => true
  | .deleteSubscriber _ => false

/-- Modelled from the spec: the runtime that delivers the events (browser, dialog library,
pending results) is not among the sources. A submit calls `handleSubmit` of its button. A
dialog calls its callback on confirm (section 9: only on affirmative response) and then
closes unless `closeOnConfirm` is off; cancelling closes it without a call. A pending result
settles once (section 4.1): it runs the callbacks of the matching kind, in the order of
registration. A `page` event calls the handlers registered for it. -/
def step (w : World) : Event → World
  | .submit button => button.handleSubmit w
  | .swalConfirm =>
    match w.dialog with
    | none => w
    | some d =>
      let w1 := match d.callback with
        | none => w
        | some cb => cb.run w
      if d.options.closeOnConfirm then { w1 with dialog := none } else w1
  | .swalCancel => { w with dialog := none }
  | .resolve req response =>
    match w.requests[req]? with
    | none => w
    | some r =>
      if r.status = .pending then
        let w1 := { w with
          requests := w.requests.set req { r with status := .resolved }
          resolvedFetches :=
            if r.call.isFetch then w.resolvedFetches ++ [(req, response)] else w.resolvedFetches }
        r.onDone.foldl (fun acc cb => cb.run response acc) w1
      else w
  | .reject req =>
    match w.requests[req]? with
    | none => w
    | some r =>
      if r.status = .pending then
        let w1 := { w with requests := w.requests.set req { r with status := .rejected } }
        r.onFail.foldl (fun acc cb => cb.run acc) w1
      else w
  | .page num => w.pagination.pageHandlers.foldl (fun acc h => h.run num acc) w

/-- The world right after the table with `props.listId = listId` has mounted. -/
def mount (listId : Nat) : World :=
  SubscribersTable.componentDidMount (World.init listId)

/-- The world after the table has mounted and the events have happened, in order. -/
def run (listId : Nat) (events : List Event) : World :=
  events.foldl step (mount listId)

/-! ### Rendering -/

/-- The elements the `render` methods return. -/
inductive Html where
  | text (s : String)
  | el (tag : String) (attrs : List (String × String)) (children : List Html)
  /-- The element `<DeleteButton sid=.../>`. -/
  | deleteButton (sid : Nat)
  /-- The element `<SubscriberRow key=... data=.../>`. -/
  | subscriberRow (key : Nat) (data : Subscriber)

/-- The method `DeleteButton.render()`. -/
def DeleteButton.render (_self : DeleteButton) : Html :=
  .el "form" [("onSubmit", "handleSubmit")]
    [ .el "input" [("type", "hidden"), ("name", "_method"), ("value", "DELETE")] [],
      .el "button" [("type", "submit")]
        [.el "span" [("className", "glyphicon glyphicon-trash")] []] ]

/-- The method `SubscriberRow.render()`, for `props.data = data`. -/
def SubscriberRow.render (data : Subscriber) : Html :=
  .el "tr" []
    [ .el "td" [] [.text data.name],
      .el "td" [] [.text data.email],
      .el "td" [] [.deleteButton data.id] ]

/-- The method `SubscribersTable.render()`, for `state.subscribers = subscribers`. -/
def SubscribersTable.render (subscribers : PageObject) : Html :=
  let rows := fun (data : Subscriber) => Html.subscriberRow data.id data
  .el "div" []
    [ .el "table" [("className", "table table-responsive table-striped table-hover")]
        [ .el "thead" []
            [ .el "tr" []
                [ .el "th" [] [.text "Subscriber name"],
                  .el "th" [] [.text "Email"],
                  .el "th" [] [.text "Delete"] ] ],
          .el "tbody" [] (subscribers.data.map rows) ],
      .el "div" [("className", "col-lg-12 pagination text-center")] [] ]

/-! ### Observations used by the statements -/

/-- The children of an element. -/
def Html.children : Html → List Html
  | .el _ _ cs => cs
  | _ => []

/-- The tag of an element. -/
def Html.tag : Html → String
  | .el t _ _ => t
  | _ => ""

/-- The children of the first descendant with the given tag among the children of a node,
searched one level down. -/
def Html.childrenOf (tag : String) (h : Html) : List Html :=
  match h.children.find? (fun c => c.tag == tag) with
  | some c => c.children
  | none => []

/-- The rows of the body of the rendered table. -/
def tableRows (h : Html) : List Html :=
  match h.children.find? (fun c => c.tag == "table") with
  | some t => t.childrenOf "tbody"
  | none => []

/-- The calls of the list client issued so far, oldest first. -/
def calls (w : World) : List ListCall :=
  w.requests.map (·.call)

/-- The identifiers of the `deleteSubscriber` calls issued so far, oldest first. -/
def deleteCalls (w : World) : List Nat :=
  (calls w).filterMap fun c =>
    match c with
    | .deleteSubscriber id => some id
    | .getSubscribers .. => none

/-- The subscriber fetches issued so far, oldest first. -/
def fetches (w : World) : List ListCall :=
  (calls w).filter (·.isFetch)

/-- The index of the fetch issued last, if any. -/
def lastFetch (w : World) : Option Nat :=
  ((List.range w.requests.length).filter fun i =>
    match w.requests[i]? with
    | some r => r.call.isFetch
    | none => false).getLast?

/-- The status of request `req`. -/
def statusOf (w : World) (req : Nat) : Option Status :=
  (w.requests[req]?).map (·.status)

/-! ### Sample data -/

/-- A first page of three, with two subscribers. -/
def samplePage1 : Page :=
  { data := [⟨1, "Ann", "ann@example.org"⟩, ⟨2, "Bob", "bob@example.org"⟩]
    current_page := 1
    last_page := 3 }

/-- A second page of three, with one subscriber. -/
def samplePage2 : Page :=
  { data := [⟨3, "Cy", "cy@example.org"⟩]
    current_page := 2
    last_page := 3 }

/-- The delete button of the row of subscriber 2. -/
def sampleButton : DeleteButton :=
  { props := { sid := 2 } }

/-- The table shows page 1; the delete button of subscriber 2 is submitted and confirmed. -/
def deleteConfirmed : List Event :=
  [.resolve 0 samplePage1, .submit sampleButton, .swalConfirm]

/-- The table shows page 1; page 2 and then page 3 are asked for, neither has arrived. -/
def twoFetchesInFlight : List Event :=
  [.resolve 0 samplePage1, .page 2, .page 3]

/-- The shape of a request the component issues, by its index in the log. -/
def Request.WellFormed (listId i : Nat) (r : Request) : Prop :=
  if i = 0 then
    r.call = .getSubscribers listId true 10 1 ∧ r.onDone = [.mountDone] ∧ r.onFail = []
  else
    (∃ num, r.call = .getSubscribers listId true 10 num ∧ r.onDone = [.pageDone] ∧ r.onFail = []) ∨
    (∃ sid, r.call = .deleteSubscriber sid ∧ r.onDone = [.deleteDone] ∧ r.onFail = [.deleteFail])

/-- What holds of every world the table can reach. -/
structure Inv (listId : Nat) (w : World) : Prop where
  listId_eq : w.listId = listId
  nonempty : 0 < w.requests.length
  shape : ∀ (i : Nat) (r : Request), w.requests[i]? = some r → r.WellFormed listId i
  handlers : w.pagination.pageHandlers = if statusOf w 0 = some .resolved then [.onPage] else []
  settings : w.pagination.settings ≠ none ↔ statusOf w 0 = some .resolved
  shown : w.pagination.settings.bind (·.page) =
    w.resolvedFetches.getLast?.map fun x => x.2.current_page
  stored : w.subscribers =
    match w.resolvedFetches.getLast? with
    | none => SubscribersTable.getInitialState
    | some x => x.2.toObject
  early : statusOf w 0 ≠ some .resolved →
    (∀ (i : Nat) (r : Request), w.requests[i]? = some r → 0 < i → r.call.isFetch = false) ∧ w.resolvedFetches = []

/-! ## Part 3. Properties -/

/-! ### Single steps -/

theorem componentDidMount_eq (w : World) :
    SubscribersTable.componentDidMount w =
      { w with requests := w.requests ++
          [{ call := .getSubscribers w.listId true 10 1, status := .pending,
             onDone := [.mountDone], onFail := [] }] } := by
  simp [SubscribersTable.componentDidMount, listCall, onDone]

theorem onPage_eq (num : Nat) (w : World) :
    SubscribersTable.onPage num w =
      { w with requests := w.requests ++
          [{ call := .getSubscribers w.listId true 10 num, status := .pending,
             onDone := [.pageDone], onFail := [] }] } := by
  simp [SubscribersTable.onPage, listCall, onDone]

theorem confirmed_eq (self : DeleteButton) (w : World) :
    DeleteButton.confirmed self w =
      { w with requests := w.requests ++
          [{ call := .deleteSubscriber self.props.sid, status := .pending,
             onDone := [.deleteDone], onFail := [.deleteFail] }] } := by
  simp [DeleteButton.confirmed, listCall, onDone, onFail]

theorem foldl_frame {α β : Type} (f : World → α) (g : β → World → World)
    (h : ∀ b w, f (g b w) = f w) (l : List β) (w : World) :
    f (l.foldl (fun acc b => g b acc) w) = f w := by
  induction l generalizing w with
  | nil => rfl
  | cons b l ih => simp only [List.foldl_cons]; rw [ih, h]

theorem inv_mount (listId : Nat) : Inv listId (mount listId) := by
  unfold mount
  rw [componentDidMount_eq]
  refine ⟨rfl, by simp [World.init], ?_, ?_, ?_, ?_, ?_, ?_⟩
  · intro i r h
    simp [World.init] at h
    cases i with
    | zero => simp at h; subst h; simp [Request.WellFormed]
    | succ n => simp at h
  · simp [World.init, statusOf]
  · simp [World.init, statusOf]
  · simp [World.init]
  · simp [World.init]
  · intro _
    refine ⟨?_, by simp [World.init]⟩
    intro i r h hi
    simp [World.init] at h
    cases i with
    | zero => omega
    | succ n => simp at h

theorem inv_of_frame {listId : Nat} {w w1 : World} (h : Inv listId w)
    (h1 : w1.listId = w.listId) (h2 : w1.requests = w.requests)
    (h3 : w1.pagination = w.pagination) (h4 : w1.resolvedFetches = w.resolvedFetches)
    (h5 : w1.subscribers = w.subscribers) : Inv listId w1 := by
  have hs : ∀ j, statusOf w1 j = statusOf w j := fun j => by simp [statusOf, h2]
  refine ⟨h1.trans h.listId_eq, h2 ▸ h.nonempty, ?_, ?_, ?_, ?_, ?_, ?_⟩
  · rw [h2]; exact h.shape
  · rw [h3, hs]; exact h.handlers
  · rw [h3, hs]; exact h.settings
  · rw [h3, h4]; exact h.shown
  · rw [h5, h4]; exact h.stored
  · rw [hs, h2, h4]; exact h.early

theorem inv_append_delete {listId : Nat} {w : World} (h : Inv listId w) (sid : Nat) :
    Inv listId { w with requests := w.requests ++
      [{ call := .deleteSubscriber sid, status := .pending,
         onDone := [.deleteDone], onFail := [.deleteFail] }] } := by
  have hpos := h.nonempty
  have hs : statusOf { w with requests := w.requests ++
      [{ call := .deleteSubscriber sid, status := .pending,
         onDone := [.deleteDone], onFail := [.deleteFail] }] } 0 = statusOf w 0 := by
    simp [statusOf, List.getElem?_append_left hpos]
  refine ⟨h.listId_eq, by simp, ?_, ?_, ?_, h.shown, h.stored, ?_⟩
  · intro i r hi
    simp only [List.getElem?_append] at hi
    split_ifs at hi with hlt
    · exact h.shape i r hi
    · have hi0 : i ≠ 0 := by omega
      have : i - w.requests.length = 0 := by
        by_contra hne
        obtain ⟨k, hk⟩ := Nat.exists_eq_succ_of_ne_zero hne
        rw [hk] at hi; simp at hi
      rw [this] at hi
      simp at hi
      subst hi
      simp [Request.WellFormed, hi0]
  · rw [hs]; exact h.handlers
  · rw [hs]; exact h.settings
  · rw [hs]
    intro hn
    refine ⟨?_, (h.early hn).2⟩
    intro i r hi hpos'
    simp only [List.getElem?_append] at hi
    split_ifs at hi with hlt
    · exact (h.early hn).1 i r hi hpos'
    · have : i - w.requests.length = 0 := by
        by_contra hne
        obtain ⟨k, hk⟩ := Nat.exists_eq_succ_of_ne_zero hne
        rw [hk] at hi; simp at hi
      rw [this] at hi
      simp at hi
      subst hi
      rfl

theorem inv_append_fetch {listId : Nat} {w : World} (h : Inv listId w) (num : Nat)
    (hres : statusOf w 0 = some .resolved) :
    Inv listId { w with requests := w.requests ++
      [{ call := .getSubscribers listId true 10 num, status := .pending,
         onDone := [.pageDone], onFail := [] }] } := by
  have hpos := h.nonempty
  have hs : statusOf { w with requests := w.requests ++
      [{ call := .getSubscribers listId true 10 num, status := .pending,
         onDone := [.pageDone], onFail := [] }] } 0 = statusOf w 0 := by
    simp [statusOf, List.getElem?_append_left hpos]
  refine ⟨h.listId_eq, by simp, ?_, ?_, ?_, h.shown, h.stored, ?_⟩
  · intro i r hi
    simp only [List.getElem?_append] at hi
    split_ifs at hi with hlt
    · exact h.shape i r hi
    · have hi0 : i ≠ 0 := by omega
      have : i - w.requests.length = 0 := by
        by_contra hne
        obtain ⟨k, hk⟩ := Nat.exists_eq_succ_of_ne_zero hne
        rw [hk] at hi; simp at hi
      rw [this] at hi
      simp at hi
      subst hi
      simp [Request.WellFormed, hi0]
  · rw [hs]; exact h.handlers
  · rw [hs]; exact h.settings
  · rw [hs]
    intro hn
    exact absurd hres hn

theorem wellFormed_status {listId i : Nat} {rq : Request} (s : Status)
    (h : rq.WellFormed listId i) : Request.WellFormed listId i { rq with status := s } := by
  simpa [Request.WellFormed] using h

theorem shape_set {listId : Nat} {w : World} (h : Inv listId w) {i : Nat} {rq : Request}
    (hi : w.requests[i]? = some rq) (s : Status) (j : Nat) (r : Request)
    (hj : (w.requests.set i { rq with status := s })[j]? = some r) :
    r.WellFormed listId j ∧ r.call.isFetch = (w.requests[j]?.map (·.call.isFetch)).getD false := by
  rw [List.getElem?_set] at hj
  split_ifs at hj with hij hlt
  · subst hij
    simp only [Option.some.injEq] at hj
    subst hj
    exact ⟨wellFormed_status s (h.shape i rq hi), by simp [hi]⟩
  · exact ⟨h.shape j r hj, by simp [hj]⟩

theorem statusOf_set_ne (w : World) {i : Nat} (rq : Request) (hi : i ≠ 0) :
    statusOf { w with requests := w.requests.set i rq } 0 = statusOf w 0 := by
  simp [statusOf, List.getElem?_set, hi]

theorem statusOf_set_self (w : World) {i : Nat} {rq0 : Request} (rq : Request)
    (hi : w.requests[i]? = some rq0) :
    statusOf { w with requests := w.requests.set i rq } i = some rq.status := by
  have hlt : i < w.requests.length := (List.getElem?_eq_some.1 hi).1
  simp [statusOf, List.getElem?_set, hlt]

/-- Settling a request other than a successful mount fetch keeps the invariant. -/
theorem inv_set_status {listId : Nat} {w : World} (h : Inv listId w) {i : Nat} {rq : Request}
    (hi : w.requests[i]? = some rq) (s : Status)
    (hcase : i ≠ 0 ∨ (s ≠ .resolved ∧ rq.status ≠ .resolved)) :
    Inv listId { w with requests := w.requests.set i { rq with status := s } } := by
  have hs : (statusOf { w with requests := w.requests.set i { rq with status := s } } 0
      = some .resolved) ↔ (statusOf w 0 = some .resolved) := by
    rcases hcase with h0 | ⟨h1, h2⟩
    · rw [statusOf_set_ne w _ h0]
    · by_cases h0 : i = 0
      · subst h0
        rw [statusOf_set_self w _ hi]
        simp [statusOf, hi, h1, h2]
      · rw [statusOf_set_ne w _ h0]
  refine ⟨h.listId_eq, by simpa using h.nonempty, ?_, ?_, ?_, h.shown, h.stored, ?_⟩
  · intro j r hj
    exact (shape_set h hi s j r hj).1
  · have := h.handlers
    simp only [hs]
    exact this
  · rw [hs]; exact h.settings
  · intro hn'
    have hn : statusOf w 0 ≠ some .resolved := fun hc => hn' (hs.2 hc)
    refine ⟨?_, (h.early hn).2⟩
    intro j r hj hpos
    rw [(shape_set h hi s j r hj).2]
    cases hq : w.requests[j]? with
    | none => rfl
    | some q => simpa using (h.early hn).1 j q hq hpos

/-- The successful mount fetch: the response is stored and the control is set up. -/
theorem inv_mount_resolved {listId : Nat} {w : World} (h : Inv listId w) {rq : Request}
    (hi : w.requests[0]? = some rq) (hp : rq.status = .pending) (response : Page) :
    Inv listId (SubscribersTable.mountDone response
      { w with
        requests := w.requests.set 0 { rq with status := .resolved }
        resolvedFetches := w.resolvedFetches ++ [(0, response)] }) := by
  have hnot : statusOf w 0 ≠ some .resolved := by simp [statusOf, hi, hp]
  have hh : w.pagination.pageHandlers = [] := by
    have := h.handlers
    rwa [if_neg hnot] at this
  have hlt : 0 < w.requests.length := h.nonempty
  have hst : statusOf (SubscribersTable.mountDone response
      { w with
        requests := w.requests.set 0 { rq with status := .resolved }
        resolvedFetches := w.resolvedFetches ++ [(0, response)] }) 0 = some .resolved := by
    simp [statusOf, SubscribersTable.mountDone, setState, bootpag, onPageEvent,
      List.getElem?_set, hlt]
  refine ⟨h.listId_eq, ?_, ?_, ?_, ?_, ?_, ?_, ?_⟩
  · simpa [SubscribersTable.mountDone, setState, bootpag, onPageEvent] using hlt
  · intro j r hj
    exact (shape_set h hi .resolved j r hj).1
  · rw [hst]
    simp [SubscribersTable.mountDone, setState, bootpag, onPageEvent, hh]
  · rw [hst]
    simp [SubscribersTable.mountDone, setState, bootpag, onPageEvent]
  · simp [SubscribersTable.mountDone, setState, bootpag, onPageEvent]
  · simp [SubscribersTable.mountDone, setState, bootpag, onPageEvent]
  · intro hn
    exact absurd hst hn

/-- A successful page fetch: the response is stored and the control shows its page. -/
theorem inv_page_resolved {listId : Nat} {w : World} (h : Inv listId w) {i : Nat}
    {rq : Request} (hi : w.requests[i]? = some rq) (h0 : i ≠ 0)
    (hf : rq.call.isFetch = true) (response : Page) :
    Inv listId (SubscribersTable.pageDone response
      { w with
        requests := w.requests.set i { rq with status := .resolved }
        resolvedFetches := w.resolvedFetches ++ [(i, response)] }) := by
  have hres : statusOf w 0 = some .resolved := by
    by_contra hn
    have := (h.early hn).1 i rq hi (Nat.pos_of_ne_zero h0)
    rw [hf] at this
    exact Bool.noConfusion this
  have hbase := inv_set_status h hi .resolved (Or.inl h0)
  have hs : statusOf (SubscribersTable.pageDone response
      { w with
        requests := w.requests.set i { rq with status := .resolved }
        resolvedFetches := w.resolvedFetches ++ [(i, response)] }) 0 = some .resolved := by
    rw [← hres, ← statusOf_set_ne w { rq with status := .resolved } h0]
    rfl
  refine ⟨hbase.listId_eq, hbase.nonempty, hbase.shape, ?_, ?_, ?_, ?_, ?_⟩
  · rw [hs]
    have := h.handlers
    rw [if_pos hres] at this
    simpa [SubscribersTable.pageDone, setState, bootpag] using this
  · rw [hs]
    simp [SubscribersTable.pageDone, setState, bootpag]
  · simp [SubscribersTable.pageDone, setState, bootpag]
  · simp [SubscribersTable.pageDone, setState, bootpag]
  · intro hn
    exact absurd hs hn

theorem inv_step {listId : Nat} {w : World} (h : Inv listId w) (e : Event) :
    Inv listId (step w e) := by
  cases e with
  | submit button => exact inv_of_frame h rfl rfl rfl rfl rfl
  | swalCancel => exact inv_of_frame h rfl rfl rfl rfl rfl
  | swalConfirm =>
    simp only [step]
    cases hd : w.dialog with
    | none => exact h
    | some d =>
      have h1 : Inv listId (match d.callback with
          | none => w
          | some cb => cb.run w) := by
        cases d.callback with
        | none => exact h
        | some cb =>
          cases cb with
          | confirmDelete self =>
            simp only [SwalCallback.run, confirmed_eq]
            exact inv_append_delete h _
          | reloadPage => exact inv_of_frame h rfl rfl rfl rfl rfl
      simp only []
      split_ifs
      · exact inv_of_frame h1 rfl rfl rfl rfl rfl
      · exact h1
  | resolve req response =>
    simp only [step]
    cases hi : w.requests[req]? with
    | none => exact h
    | some rq =>
      have hw := h.shape req rq hi
      obtain ⟨c, s, od, ofl⟩ := rq
      by_cases hp : s = .pending
      · subst hp
        simp only [if_true]
        by_cases h0 : req = 0
        · subst h0
          simp only [Request.WellFormed, if_true] at hw
          obtain ⟨hc, hd, _⟩ := hw
          subst hc hd
          simp only [ListCall.isFetch, List.foldl_cons, List.foldl_nil, if_true,
            DoneCallback.run]
          exact inv_mount_resolved h hi rfl response
        · simp only [Request.WellFormed, if_neg h0] at hw
          rcases hw with ⟨num, hc, hd, _⟩ | ⟨sid, hc, hd, _⟩
          · subst hc hd
            simp only [ListCall.isFetch, List.foldl_cons, List.foldl_nil, if_true,
              DoneCallback.run]
            exact inv_page_resolved h hi h0 rfl response
          · subst hc hd
            simp only [ListCall.isFetch, List.foldl_cons, List.foldl_nil,
              DoneCallback.run, Bool.false_eq_true, if_false]
            exact inv_of_frame (inv_set_status h hi .resolved (Or.inl h0)) rfl rfl rfl rfl rfl
      · simp only [if_neg hp]
        exact h
  | reject req =>
    simp only [step]
    cases hi : w.requests[req]? with
    | none => exact h
    | some rq =>
      have hw := h.shape req rq hi
      obtain ⟨c, s, od, ofl⟩ := rq
      by_cases hp : s = .pending
      · subst hp
        simp only [if_true]
        have hbase := inv_set_status h hi .rejected
          (Or.inr ⟨by simp, by simp⟩)
        by_cases h0 : req = 0
        · subst h0
          simp only [Request.WellFormed, if_true] at hw
          obtain ⟨_, _, hf⟩ := hw
          subst hf
          exact hbase
        · simp only [Request.WellFormed, if_neg h0] at hw
          rcases hw with ⟨num, _, _, hf⟩ | ⟨sid, _, _, hf⟩
          · subst hf
            exact hbase
          · subst hf
            exact inv_of_frame hbase rfl rfl rfl rfl rfl
      · simp only [if_neg hp]
        exact h
  | page num =>
    have hl := h.listId_eq
    subst hl
    simp only [step]
    rw [h.handlers]
    split_ifs with hres
    · simp only [List.foldl_cons, List.foldl_nil, PageHandler.run, onPage_eq]
      exact inv_append_fetch h num hres
    · exact h

theorem run_append (listId : Nat) (events : List Event) (e : Event) :
    run listId (events ++ [e]) = step (run listId events) e := by
  simp [run, List.foldl_append]

theorem inv_run (listId : Nat) (events : List Event) : Inv listId (run listId events) := by
  induction events using List.reverseRecOn with
  | nil => exact inv_mount listId
  | append_singleton l e ih => rw [run_append]; exact inv_step ih e

theorem map_call_set (l : List Request) (i : Nat) (rq : Request) (s : Status)
    (hi : l[i]? = some rq) :
    (l.set i { rq with status := s }).map (·.call) = l.map (·.call) := by
  apply List.ext_getElem?
  intro j
  simp only [List.getElem?_map, List.getElem?_set]
  split_ifs with hij hlt
  · subst hij; simp [hi]
  · subst hij
    have := (List.getElem?_eq_some.1 hi).1
    exact absurd this hlt
  · rfl

theorem done_requests (cb : DoneCallback) (r : Page) (w : World) :
    (cb.run r w).requests = w.requests := by
  cases cb <;> rfl

theorem fail_requests (cb : FailCallback) (w : World) : (cb.run w).requests = w.requests := by
  cases cb; rfl

theorem calls_resolve (w : World) (i : Nat) (r : Page) :
    calls (step w (.resolve i r)) = calls w := by
  simp only [step]
  cases hi : w.requests[i]? with
  | none => rfl
  | some rq =>
    by_cases hp : rq.status = .pending
    · simp only [if_pos hp, calls]
      rw [foldl_frame (fun w => w.requests) (fun cb acc => DoneCallback.run cb r acc)
        (fun cb w => done_requests cb r w)]
      exact map_call_set _ _ _ _ hi
    · simp only [if_neg hp]

theorem calls_reject (w : World) (i : Nat) : calls (step w (.reject i)) = calls w := by
  simp only [step]
  cases hi : w.requests[i]? with
  | none => rfl
  | some rq =>
    by_cases hp : rq.status = .pending
    · simp only [if_pos hp, calls]
      rw [foldl_frame (fun w => w.requests) (fun cb acc => FailCallback.run cb acc)
        (fun cb w => fail_requests cb w)]
      exact map_call_set _ _ _ _ hi
    · simp only [if_neg hp]

theorem calls_foldl_page (num : Nat) (hs : List PageHandler) (w : World) :
    calls (hs.foldl (fun acc h => h.run num acc) w) =
      calls w ++ hs.map fun _ => ListCall.getSubscribers w.listId true 10 num := by
  induction hs generalizing w with
  | nil => simp
  | cons h hs ih =>
    cases h
    rw [List.foldl_cons, ih]
    simp [PageHandler.run, onPage_eq, calls]

theorem calls_page (w : World) (num : Nat) :
    calls (step w (.page num)) =
      calls w ++ w.pagination.pageHandlers.map fun _ =>
        ListCall.getSubscribers w.listId true 10 num := by
  simp only [step]
  exact calls_foldl_page num _ w

theorem calls_confirm (w : World) :
    calls (step w .swalConfirm) = calls w ∨
      ∃ o b, w.dialog = some ⟨o, some (.confirmDelete b)⟩ ∧
        calls (step w .swalConfirm) = calls w ++ [.deleteSubscriber b.props.sid] := by
  simp only [step]
  cases hd : w.dialog with
  | none => exact Or.inl rfl
  | some d =>
    obtain ⟨o, cb⟩ := d
    cases cb with
    | none => left; simp only []; split_ifs <;> rfl
    | some cb =>
      cases cb with
      | reloadPage => left; simp only []; split_ifs <;> rfl
      | confirmDelete b =>
        right
        refine ⟨o, b, rfl, ?_⟩
        simp only [SwalCallback.run, confirmed_eq]
        split_ifs <;> simp [calls]

theorem calls_confirm_of {w : World} {o : SwalOptions} {b : DeleteButton}
    (hd : w.dialog = some ⟨o, some (.confirmDelete b)⟩) :
    calls (step w .swalConfirm) = calls w ++ [.deleteSubscriber b.props.sid] := by
  simp only [step, hd, SwalCallback.run, confirmed_eq]
  split_ifs <;> simp [calls]

theorem done_dialog (r : Page) (cbs : List DoneCallback) (w : World) :
    (cbs.foldl (fun acc cb => cb.run r acc) w).dialog = w.dialog ∨
      (cbs.foldl (fun acc cb => cb.run r acc) w).dialog =
        some ⟨successOptions, some .reloadPage⟩ := by
  induction cbs generalizing w with
  | nil => exact Or.inl rfl
  | cons cb cbs ih =>
    rw [List.foldl_cons]
    rcases ih (cb.run r w) with h | h
    · cases cb
      · exact Or.inr (h.trans rfl)
      · exact Or.inl (h.trans rfl)
      · exact Or.inl (h.trans rfl)
    · exact Or.inr h

theorem fail_dialog (cbs : List FailCallback) (w : World) :
    (cbs.foldl (fun acc cb => cb.run acc) w).dialog = w.dialog ∨
      (cbs.foldl (fun acc cb => cb.run acc) w).dialog = some ⟨errorOptions, none⟩ := by
  induction cbs generalizing w with
  | nil => exact Or.inl rfl
  | cons cb cbs ih =>
    rw [List.foldl_cons]
    rcases ih (cb.run w) with h | h
    · cases cb
      exact Or.inr (h.trans rfl)
    · exact Or.inr h

theorem page_dialog (num : Nat) (h : PageHandler) (w : World) :
    (h.run num w).dialog = w.dialog := by
  cases h
  simp [PageHandler.run, onPage_eq]

/-- A confirmation dialog on display was opened by this event or was there before it. -/
theorem dialog_step (w : World) (e : Event) (o : SwalOptions) (b : DeleteButton)
    (h : (step w e).dialog = some ⟨o, some (.confirmDelete b)⟩) :
    (e = .submit b ∧ o = confirmOptions) ∨
      ((∀ b', e ≠ .submit b') ∧ e ≠ .swalCancel ∧
        w.dialog = some ⟨o, some (.confirmDelete b)⟩) := by
  cases e with
  | submit button =>
    left
    simp only [step, DeleteButton.handleSubmit, swal, Option.some.injEq, Dialog.mk.injEq,
      SwalCallback.confirmDelete.injEq] at h
    exact ⟨by rw [h.2], h.1.symm⟩
  | swalCancel => simp [step] at h
  | swalConfirm =>
    right
    refine ⟨fun _ => by simp, by simp, ?_⟩
    simp only [step] at h
    cases hd : w.dialog with
    | none =>
      rw [hd] at h
      simp only [] at h
      rw [hd] at h
      cases h
    | some d =>
      rw [hd] at h
      simp only [] at h
      have hk : (match d.callback with
          | none => w
          | some cb => cb.run w).dialog = w.dialog := by
        cases d.callback with
        | none => rfl
        | some cb =>
          cases cb with
          | confirmDelete self => simp [SwalCallback.run, confirmed_eq]
          | reloadPage => rfl
      split_ifs at h
      rw [← hd, ← hk]
      exact h
  | resolve req response =>
    right
    refine ⟨fun _ => by simp, by simp, ?_⟩
    simp only [step] at h
    cases hi : w.requests[req]? with
    | none => rw [hi] at h; exact h
    | some rq =>
      rw [hi] at h
      by_cases hp : rq.status = .pending
      · simp only [if_pos hp] at h
        rcases done_dialog response rq.onDone _ with hk | hk
        · rw [hk] at h; exact h
        · rw [hk] at h; simp at h
      · simp only [if_neg hp] at h; exact h
  | reject req =>
    right
    refine ⟨fun _ => by simp, by simp, ?_⟩
    simp only [step] at h
    cases hi : w.requests[req]? with
    | none => rw [hi] at h; exact h
    | some rq =>
      rw [hi] at h
      by_cases hp : rq.status = .pending
      · simp only [if_pos hp] at h
        rcases fail_dialog rq.onFail _ with hk | hk
        · rw [hk] at h; exact h
        · rw [hk] at h; simp at h
      · simp only [if_neg hp] at h; exact h
  | page num =>
    right
    refine ⟨fun _ => by simp, by simp, ?_⟩
    simp only [step] at h
    rw [foldl_frame (fun w => w.dialog) (fun h acc => PageHandler.run h num acc)
      (fun h w => page_dialog num h w)] at h
    exact h

/-- The confirmation dialog on display belongs to the button submitted last, and that
submit has not been cancelled. -/
theorem dialog_run (listId : Nat) (events : List Event) (o : SwalOptions) (b : DeleteButton)
    (h : (run listId events).dialog = some ⟨o, some (.confirmDelete b)⟩) :
    o = confirmOptions ∧ ∃ pre post, events = pre ++ .submit b :: post ∧
      ∀ x ∈ post, (∀ b', x ≠ .submit b') ∧ x ≠ .swalCancel := by
  induction events using List.reverseRecOn with
  | nil => simp [run, mount, componentDidMount_eq, World.init] at h
  | append_singleton l e ih =>
    rw [run_append] at h
    rcases dialog_step _ _ _ _ h with ⟨he, ho⟩ | ⟨hs, hc, hd⟩
    · subst he
      exact ⟨ho, l, [], rfl, by simp⟩
    · obtain ⟨ho, pre, post, hl, hpost⟩ := ih hd
      refine ⟨ho, pre, post ++ [e], by simp [hl], ?_⟩
      intro x hx
      rcases List.mem_append.1 hx with hx | hx
      · exact hpost x hx
      · simp only [List.mem_singleton] at hx
        subst hx
        exact ⟨hs, hc⟩

/-- What the success of a pending request does, by the kind of the request. -/
theorem resolve_cases {listId : Nat} {w : World} (h : Inv listId w) {i : Nat} {rq : Request}
    (hi : w.requests[i]? = some rq) (hp : rq.status = .pending) (r : Page) :
    (i = 0 ∧ rq.call.isFetch = true ∧
      step w (.resolve i r) = SubscribersTable.mountDone r
        { w with
          requests := w.requests.set i { rq with status := .resolved }
          resolvedFetches := w.resolvedFetches ++ [(i, r)] }) ∨
    (i ≠ 0 ∧ rq.call.isFetch = true ∧
      step w (.resolve i r) = SubscribersTable.pageDone r
        { w with
          requests := w.requests.set i { rq with status := .resolved }
          resolvedFetches := w.resolvedFetches ++ [(i, r)] }) ∨
    (rq.call.isFetch = false ∧
      step w (.resolve i r) = DeleteButton.deleteDone
        { w with requests := w.requests.set i { rq with status := .resolved } }) := by
  have hw := h.shape i rq hi
  obtain ⟨c, s, od, ofl⟩ := rq
  simp only at hp
  subst hp
  simp only [step, hi, if_true]
  by_cases h0 : i = 0
  · subst h0
    simp only [Request.WellFormed, if_true] at hw
    obtain ⟨hc, hd, _⟩ := hw
    subst hc hd
    left
    exact ⟨rfl, rfl, rfl⟩
  · simp only [Request.WellFormed, if_neg h0] at hw
    rcases hw with ⟨num, hc, hd, _⟩ | ⟨sid, hc, hd, _⟩
    · subst hc hd
      right; left
      exact ⟨h0, rfl, rfl⟩
    · subst hc hd
      right; right
      exact ⟨rfl, rfl⟩

/-- What the failure of a pending request does, by the kind of the request. -/
theorem reject_cases {listId : Nat} {w : World} (h : Inv listId w) {i : Nat} {rq : Request}
    (hi : w.requests[i]? = some rq) (hp : rq.status = .pending) :
    (rq.call.isFetch = true ∧
      step w (.reject i) =
        { w with requests := w.requests.set i { rq with status := .rejected } }) ∨
    (rq.call.isFetch = false ∧
      step w (.reject i) = DeleteButton.deleteFail
        { w with requests := w.requests.set i { rq with status := .rejected } }) := by
  have hw := h.shape i rq hi
  obtain ⟨c, s, od, ofl⟩ := rq
  simp only at hp
  subst hp
  simp only [step, hi, if_true]
  by_cases h0 : i = 0
  · subst h0
    simp only [Request.WellFormed, if_true] at hw
    obtain ⟨hc, _, hf⟩ := hw
    subst hc hf
    left
    exact ⟨rfl, rfl⟩
  · simp only [Request.WellFormed, if_neg h0] at hw
    rcases hw with ⟨num, hc, _, hf⟩ | ⟨sid, hc, _, hf⟩
    · subst hc hf
      left
      exact ⟨rfl, rfl⟩
    · subst hc hf
      right
      exact ⟨rfl, rfl⟩

/-- An event that is not the success of a pending request leaves the request as it is. -/
theorem resolve_idle {w : World} {i : Nat} (r : Page)
    (h : ∀ rq, w.requests[i]? = some rq → rq.status ≠ .pending) :
    step w (.resolve i r) = w := by
  simp only [step]
  cases hi : w.requests[i]? with
  | none => rfl
  | some rq => simp only [if_neg (h rq hi)]

theorem reject_idle {w : World} {i : Nat}
    (h : ∀ rq, w.requests[i]? = some rq → rq.status ≠ .pending) :
    step w (.reject i) = w := by
  simp only [step]
  cases hi : w.requests[i]? with
  | none => rfl
  | some rq => simp only [if_neg (h rq hi)]

theorem page_frame (num : Nat) (hs : List PageHandler) (w : World) :
    let w1 := hs.foldl (fun acc h => h.run num acc) w
    w1.subscribers = w.subscribers ∧ w1.setStates = w.setStates ∧
      w1.resolvedFetches = w.resolvedFetches ∧ w1.reloads = w.reloads ∧
      w1.pagination = w.pagination ∧ w1.dialog = w.dialog := by
  induction hs generalizing w with
  | nil => simp
  | cons h hs ih =>
    cases h
    simp only [List.foldl_cons]
    obtain ⟨h1, h2, h3, h4, h5, h6⟩ := ih (PageHandler.run .onPage num w)
    simp only [PageHandler.run, onPage_eq] at h1 h2 h3 h4 h5 h6 ⊢
    exact ⟨h1, h2, h3, h4, h5, h6⟩

theorem confirm_frame (w : World) :
    (step w .swalConfirm).subscribers = w.subscribers ∧
      (step w .swalConfirm).setStates = w.setStates ∧
      (step w .swalConfirm).resolvedFetches = w.resolvedFetches ∧
      (step w .swalConfirm).pagination = w.pagination := by
  simp only [step]
  cases w.dialog with
  | none => exact ⟨rfl, rfl, rfl, rfl⟩
  | some d =>
    obtain ⟨o, cb⟩ := d
    cases cb with
    | none => simp only []; split_ifs <;> exact ⟨rfl, rfl, rfl, rfl⟩
    | some cb =>
      cases cb <;> simp only [SwalCallback.run, confirmed_eq, locationReload] <;>
        split_ifs <;> exact ⟨rfl, rfl, rfl, rfl⟩

/-- Only the success of a pending fetch writes the page of the table, and it writes
the response. -/
theorem write_cases {listId : Nat} {w : World} (h : Inv listId w) (e : Event) :
    ((step w e).subscribers = w.subscribers ∧ (step w e).setStates = w.setStates ∧
      (step w e).resolvedFetches = w.resolvedFetches) ∨
    ∃ i r rq, e = .resolve i r ∧ w.requests[i]? = some rq ∧ rq.status = .pending ∧
      rq.call.isFetch = true ∧ (step w e).subscribers = r.toObject ∧
      (step w e).setStates = w.setStates ++ [r] ∧
      (step w e).resolvedFetches = w.resolvedFetches ++ [(i, r)] ∧
      ((step w e).pagination.settings.bind fun s => s.page) = some r.current_page := by
  cases e with
  | submit button => exact Or.inl ⟨rfl, rfl, rfl⟩
  | swalCancel => exact Or.inl ⟨rfl, rfl, rfl⟩
  | swalConfirm =>
    obtain ⟨h1, h2, h3, _⟩ := confirm_frame w
    exact Or.inl ⟨h1, h2, h3⟩
  | page num =>
    obtain ⟨h1, h2, h3, _⟩ := page_frame num w.pagination.pageHandlers w
    exact Or.inl ⟨h1, h2, h3⟩
  | reject req =>
    left
    by_cases hex : ∃ rq, w.requests[req]? = some rq ∧ rq.status = .pending
    · obtain ⟨rq, hi, hp⟩ := hex
      rcases reject_cases h hi hp with ⟨_, he⟩ | ⟨_, he⟩ <;> rw [he] <;> exact ⟨rfl, rfl, rfl⟩
    · rw [reject_idle (fun rq hi hp => hex ⟨rq, hi, hp⟩)]
      exact ⟨rfl, rfl, rfl⟩
  | resolve req r =>
    by_cases hex : ∃ rq, w.requests[req]? = some rq ∧ rq.status = .pending
    · obtain ⟨rq, hi, hp⟩ := hex
      rcases resolve_cases h hi hp r with ⟨_, hf, he⟩ | ⟨_, hf, he⟩ | ⟨_, he⟩
      · right
        refine ⟨req, r, rq, rfl, hi, hp, hf, ?_⟩
        rw [he]
        exact ⟨rfl, rfl, rfl, rfl⟩
      · right
        refine ⟨req, r, rq, rfl, hi, hp, hf, ?_⟩
        rw [he]
        exact ⟨rfl, rfl, rfl, rfl⟩
      · left
        rw [he]
        exact ⟨rfl, rfl, rfl⟩
    · rw [resolve_idle r (fun rq hi hp => hex ⟨rq, hi, hp⟩)]
      exact Or.inl ⟨rfl, rfl, rfl⟩

/-- C1: for every object `data`, whatever fields it carries, `Template.create(data)` issues
exactly one request; it is a POST to `url_base + '/api/templates'` whose payload is the two
fields `name = data.name` and `content = data.content`, in that order, and nothing else. -/
theorem create_posts_name_and_content (url_base : String) (fields : List (String × JSVal))
    (net : Network) :
    ∃ request : AjaxSettings,
      Template.create (Template.new url_base) (.obj fields) net =
        .ok (net.length, net ++ [request]) ∧
      request.type = "POST" ∧
      request.url = url_base ++ "/api/templates" ∧
      request.data = some
        [("name", (fields.lookup "name").getD .undefined),
         ("content", (fields.lookup "content").getD .undefined)] ∧
      request.data.map (List.map Prod.fst) = some ["name", "content"] :=
  ⟨_, rfl, rfl, rfl, rfl, rfl⟩

/-- C2: for every `paginate`, `perPage` and `page`, `Template.all` issues one GET request to
`url_base + '/api/templates'` whose query parameters are `paginate`, `per_page` and `page`
with these three values, in that order and with no others; for `(true, 10, 2)` they read
`paginate=true&per_page=10&page=2`. -/
theorem all_gets_with_three_parameters (url_base : String) (paginate perPage page : JSVal)
    (net : Network) :
    (∃ request : AjaxSettings,
      Template.all (Template.new url_base) paginate perPage page net =
        (net.length, net ++ [request]) ∧
      request.type = "GET" ∧
      request.url = url_base ++ "/api/templates" ∧
      request.data = some [("paginate", paginate), ("per_page", perPage), ("page", page)]) ∧
    (∃ request : AjaxSettings,
      Template.all (Template.new url_base) (.bool true) (.num 10) (.num 2) net =
        (net.length, net ++ [request]) ∧
      request.data.map queryString = some "paginate=true&per_page=10&page=2") :=
  ⟨⟨_, rfl, rfl, rfl, rfl⟩, ⟨_, rfl, rfl⟩⟩

theorem deleteCalls_of_calls {w1 w : World} (h : calls w1 = calls w) :
    deleteCalls w1 = deleteCalls w := by
  simp [deleteCalls, h]

theorem fetches_of_calls {w1 w : World} (h : calls w1 = calls w) :
    fetches w1 = fetches w := by
  simp [fetches, h]

/-- C4: whatever has happened before, a submit only opens the confirmation dialog of its
button and a cancel only closes the dialog, neither issues a `deleteSubscriber` call; a
confirm pressed on the confirmation dialog of a button issues exactly one call, with the
`props.sid` of that button; and an event that issues a call is such a confirm, pressed on
the dialog of the button submitted last, that submit not having been cancelled since. -/
theorem delete_requires_confirmation (listId : Nat) (events : List Event) :
    (∀ b : DeleteButton,
      deleteCalls (step (run listId events) (.submit b)) = deleteCalls (run listId events) ∧
      (step (run listId events) (.submit b)).dialog =
        some ⟨confirmOptions, some (.confirmDelete b)⟩) ∧
    (deleteCalls (step (run listId events) .swalCancel) = deleteCalls (run listId events) ∧
      (step (run listId events) .swalCancel).dialog = none) ∧
    (∀ (o : SwalOptions) (b : DeleteButton),
      (run listId events).dialog = some ⟨o, some (.confirmDelete b)⟩ →
      deleteCalls (step (run listId events) .swalConfirm) =
        deleteCalls (run listId events) ++ [b.props.sid]) ∧
    (∀ e : Event,
      deleteCalls (step (run listId events) e) ≠ deleteCalls (run listId events) →
      e = .swalConfirm ∧ ∃ (b : DeleteButton) (pre post : List Event),
        (run listId events).dialog = some ⟨confirmOptions, some (.confirmDelete b)⟩ ∧
        events = pre ++ .submit b :: post ∧
        (∀ x ∈ post, (∀ b', x ≠ .submit b') ∧ x ≠ .swalCancel) ∧
        deleteCalls (step (run listId events) e) =
          deleteCalls (run listId events) ++ [b.props.sid]) := by
  refine ⟨fun b => ⟨rfl, rfl⟩, ⟨rfl, rfl⟩, ?_, ?_⟩
  · intro o b hd
    simp [deleteCalls, calls_confirm_of hd]
  · intro e hne
    cases e with
    | submit b => exact absurd rfl hne
    | swalCancel => exact absurd rfl hne
    | resolve i r => exact absurd (deleteCalls_of_calls (calls_resolve _ i r)) hne
    | reject i => exact absurd (deleteCalls_of_calls (calls_reject _ i)) hne
    | page num =>
      exfalso
      apply hne
      simp [deleteCalls, calls_page, List.filterMap_append]
    | swalConfirm =>
      refine ⟨rfl, ?_⟩
      rcases calls_confirm (run listId events) with hc | ⟨o, b, hd, hc⟩
      · exact absurd (deleteCalls_of_calls hc) hne
      · obtain ⟨ho, pre, post, hev, hpost⟩ := dialog_run listId events o b hd
        subst ho
        exact ⟨b, pre, post, hd, hev, hpost, by simp [deleteCalls, hc]⟩

/-- Witness of C4: on the confirmation dialog of the button of subscriber 2, a confirm issues
the call `deleteSubscriber(2)` and no other. -/
theorem delete_requires_confirmation_witness :
    (run 7 [.resolve 0 samplePage1, .submit sampleButton]).dialog =
        some ⟨confirmOptions, some (.confirmDelete sampleButton)⟩ ∧
      deleteCalls
          (step (run 7 [.resolve 0 samplePage1, .submit sampleButton]) .swalConfirm) =
        deleteCalls (run 7 [.resolve 0 samplePage1, .submit sampleButton]) ++ [2] :=
  ⟨by decide,
    (delete_requires_confirmation 7 [.resolve 0 samplePage1, .submit sampleButton]).2.2.1
      confirmOptions sampleButton (by decide)⟩

/-- C5, as stated, fails: after the confirmed delete of subscriber 2 has succeeded, no reload
has happened; the success dialog is on display and holds the reload as its callback. -/
theorem success_alone_does_not_reload :
    calls (run 7 deleteConfirmed) =
        [.getSubscribers 7 true 10 1, .deleteSubscriber 2] ∧
      statusOf (step (run 7 deleteConfirmed) (.resolve 1 samplePage1)) 1 = some .resolved ∧
      (step (run 7 deleteConfirmed) (.resolve 1 samplePage1)).reloads = 0 ∧
      (step (run 7 deleteConfirmed) (.resolve 1 samplePage1)).dialog =
        some ⟨successOptions, some .reloadPage⟩ := by
  decide

/-- C5, amended: for a pending delete request, success shows the success dialog and does not
reload by itself; the page is reloaded, once, when that dialog is confirmed. Failure shows
the error dialog, reloads nothing and leaves the page of the table, and so its rows, as they
were, also after the error dialog is closed. -/
theorem delete_outcome (listId : Nat) (events : List Event) (i sid : Nat) (rq : Request)
    (hi : (run listId events).requests[i]? = some rq) (hp : rq.status = .pending)
    (hc : rq.call = .deleteSubscriber sid) :
    (∀ r : Page,
      (step (run listId events) (.resolve i r)).dialog =
        some ⟨successOptions, some .reloadPage⟩ ∧
      (step (run listId events) (.resolve i r)).reloads = (run listId events).reloads ∧
      (step (step (run listId events) (.resolve i r)) .swalConfirm).reloads =
        (run listId events).reloads + 1 ∧
      (step (step (run listId events) (.resolve i r)) .swalConfirm).dialog = none) ∧
    ((step (run listId events) (.reject i)).dialog = some ⟨errorOptions, none⟩ ∧
      (step (run listId events) (.reject i)).reloads = (run listId events).reloads ∧
      (step (run listId events) (.reject i)).subscribers = (run listId events).subscribers ∧
      tableRows (SubscribersTable.render (step (run listId events) (.reject i)).subscribers) =
        tableRows (SubscribersTable.render (run listId events).subscribers) ∧
      ∀ e : Event, e = .swalConfirm ∨ e = .swalCancel →
        (step (step (run listId events) (.reject i)) e).reloads =
          (run listId events).reloads ∧
        (step (step (run listId events) (.reject i)) e).subscribers =
          (run listId events).subscribers) := by
  have hinv := inv_run listId events
  have hf : rq.call.isFetch = false := by rw [hc]; rfl
  constructor
  · intro r
    rcases resolve_cases hinv hi hp r with ⟨_, hf', _⟩ | ⟨_, hf', _⟩ | ⟨_, he⟩
    · rw [hf] at hf'; cases hf'
    · rw [hf] at hf'; cases hf'
    · rw [he]
      exact ⟨rfl, rfl, rfl, rfl⟩
  · rcases reject_cases hinv hi hp with ⟨hf', _⟩ | ⟨_, he⟩
    · rw [hf] at hf'; cases hf'
    · rw [he]
      refine ⟨rfl, rfl, rfl, rfl, ?_⟩
      intro e hcase
      rcases hcase with rfl | rfl <;> exact ⟨rfl, rfl⟩

/-- Witness of C5, amended: the pending delete request of subscriber 2. -/
theorem delete_outcome_witness :
    (run 7 deleteConfirmed).requests[1]? =
        some ⟨.deleteSubscriber 2, .pending, [.deleteDone], [.deleteFail]⟩ ∧
      (step (step (run 7 deleteConfirmed) (.resolve 1 samplePage1)) .swalConfirm).reloads =
        (run 7 deleteConfirmed).reloads + 1 ∧
      (step (run 7 deleteConfirmed) (.reject 1)).subscribers =
        (run 7 deleteConfirmed).subscribers :=
  ⟨by decide,
    ((delete_outcome 7 deleteConfirmed 1 2
      ⟨.deleteSubscriber 2, .pending, [.deleteDone], [.deleteFail]⟩
      (by decide) rfl rfl).1 samplePage1).2.2.1,
    (delete_outcome 7 deleteConfirmed 1 2
      ⟨.deleteSubscriber 2, .pending, [.deleteDone], [.deleteFail]⟩
      (by decide) rfl rfl).2.2.2.1⟩

/-! ### The subscribers table -/

theorem fetch_shape {listId : Nat} {w : World} (h : Inv listId w) (c : ListCall)
    (hc : c ∈ fetches w) : ∃ p, c = .getSubscribers listId true 10 p := by
  simp only [fetches, calls, List.mem_filter, List.mem_map] at hc
  obtain ⟨⟨rq, hmem, hrq⟩, hf⟩ := hc
  obtain ⟨i, hi⟩ := List.getElem?_of_mem hmem
  have hw := h.shape i rq hi
  subst hrq
  by_cases h0 : i = 0
  · simp only [Request.WellFormed, if_pos h0] at hw
    exact ⟨1, hw.1⟩
  · simp only [Request.WellFormed, if_neg h0] at hw
    rcases hw with ⟨num, hcall, _⟩ | ⟨sid, hcall, _⟩
    · exact ⟨num, hcall⟩
    · rw [hcall] at hf
      cases hf

/-- C6: mounting issues exactly one call, `getSubscribers(props.listId, true, 10, 1)`; once
the pagination control exists, a `page` event with number `num` issues exactly one call,
`getSubscribers(props.listId, true, 10, num)`; no other event issues a fetch; so every fetch
in the log is `getSubscribers(props.listId, true, 10, p)` for some `p`. -/
theorem fetches_of_the_table (listId : Nat) (events : List Event) :
    calls (mount listId) = [.getSubscribers listId true 10 1] ∧
    (∀ num : Nat, (run listId events).pagination.settings ≠ none →
      calls (step (run listId events) (.page num)) =
        calls (run listId events) ++ [.getSubscribers listId true 10 num] ∧
      fetches (step (run listId events) (.page num)) =
        fetches (run listId events) ++ [.getSubscribers listId true 10 num]) ∧
    (∀ e : Event, (∀ num, e ≠ .page num) →
      fetches (step (run listId events) e) = fetches (run listId events)) ∧
    (∀ c ∈ fetches (run listId events), ∃ p, c = .getSubscribers listId true 10 p) := by
  have hinv := inv_run listId events
  refine ⟨?_, ?_, ?_, fun c hc => fetch_shape hinv c hc⟩
  · simp [mount, componentDidMount_eq, calls, World.init]
  · intro num hs
    have hres := hinv.settings.1 hs
    have hh := hinv.handlers
    rw [if_pos hres] at hh
    have hcalls : calls (step (run listId events) (.page num)) =
        calls (run listId events) ++ [.getSubscribers listId true 10 num] := by
      rw [calls_page, hh, hinv.listId_eq]
      rfl
    exact ⟨hcalls, by simp [fetches, hcalls, ListCall.isFetch]⟩
  · intro e hne
    cases e with
    | submit b => rfl
    | swalCancel => rfl
    | resolve i r => exact fetches_of_calls (calls_resolve _ i r)
    | reject i => exact fetches_of_calls (calls_reject _ i)
    | page num => exact absurd rfl (hne num)
    | swalConfirm =>
      rcases calls_confirm (run listId events) with hc | ⟨o, b, _, hc⟩
      · exact fetches_of_calls hc
      · simp [fetches, hc, ListCall.isFetch]

/-- Witness of C6: with page 1 on display, the event `page 2` issues
`getSubscribers(7, true, 10, 2)`. -/
theorem fetches_of_the_table_witness :
    (run 7 [.resolve 0 samplePage1]).pagination.settings ≠ none ∧
      fetches (step (run 7 [.resolve 0 samplePage1]) (.page 2)) =
        fetches (run 7 [.resolve 0 samplePage1]) ++ [.getSubscribers 7 true 10 2] :=
  ⟨by decide,
    ((fetches_of_the_table 7 [.resolve 0 samplePage1]).2.1 2 (by decide)).2⟩

/-- C7: request 0 is the mount fetch. While it is pending there is no pagination control and
no `page` handler, and its success with response `r` sets the control up with
`total = r.last_page`, `page = r.current_page`, `maxVisible = 5` and registers the one
handler. As long as it has not succeeded there is neither control nor handler; once it has,
there is exactly one handler. -/
theorem pagination_set_up_by_mount (listId : Nat) (events : List Event) :
    (calls (run listId events))[0]? = some (.getSubscribers listId true 10 1) ∧
    (∀ r : Page, statusOf (run listId events) 0 = some .pending →
      (run listId events).pagination = ⟨none, []⟩ ∧
      (step (run listId events) (.resolve 0 r)).pagination =
        ⟨some ⟨some r.last_page, some r.current_page, some 5⟩, [.onPage]⟩ ∧
      statusOf (step (run listId events) (.resolve 0 r)) 0 = some .resolved) ∧
    (statusOf (run listId events) 0 ≠ some .resolved →
      (run listId events).pagination = ⟨none, []⟩) ∧
    (statusOf (run listId events) 0 = some .resolved →
      (run listId events).pagination.settings ≠ none ∧
      (run listId events).pagination.pageHandlers = [.onPage]) := by
  have hinv := inv_run listId events
  have hnone : statusOf (run listId events) 0 ≠ some .resolved →
      (run listId events).pagination = ⟨none, []⟩ := by
    intro hn
    have h1 := hinv.handlers
    rw [if_neg hn] at h1
    have h2 : (run listId events).pagination.settings = none := by
      by_contra hc
      exact hn (hinv.settings.1 hc)
    cases hpg : (run listId events).pagination with
    | mk s hs =>
      rw [hpg] at h1 h2
      simp only at h1 h2
      rw [h1, h2]
  refine ⟨?_, ?_, hnone, ?_⟩
  · obtain ⟨rq, hrq⟩ : ∃ rq, (run listId events).requests[0]? = some rq := by
      cases hq : (run listId events).requests with
      | nil =>
        have := hinv.nonempty
        rw [hq] at this
        simp at this
      | cons a l => exact ⟨a, by simp⟩
    have hw := hinv.shape 0 rq hrq
    simp only [Request.WellFormed, if_true] at hw
    simp [calls, hrq, hw.1]
  · intro r hpend
    have hn : statusOf (run listId events) 0 ≠ some .resolved := by
      rw [hpend]; decide
    have hpg := hnone hn
    obtain ⟨rq, hrq, hst⟩ : ∃ rq, (run listId events).requests[0]? = some rq ∧
        rq.status = .pending := by
      simp only [statusOf, Option.map_eq_some'] at hpend
      exact hpend
    refine ⟨hpg, ?_⟩
    rcases resolve_cases hinv hrq hst r with ⟨_, _, he⟩ | ⟨h0, _, _⟩ | ⟨hf, _⟩
    · rw [he]
      have hlt : 0 < (run listId events).requests.length := hinv.nonempty
      constructor
      · simp [SubscribersTable.mountDone, setState, bootpag, onPageEvent, hpg]
      · simp [statusOf, SubscribersTable.mountDone, setState, bootpag, onPageEvent,
          List.getElem?_set, hlt]
    · exact absurd rfl h0
    · have hw := hinv.shape 0 rq hrq
      simp only [Request.WellFormed, if_true] at hw
      rw [hw.1] at hf
      cases hf
  · intro hres
    have h1 := hinv.handlers
    rw [if_pos hres] at h1
    exact ⟨hinv.settings.2 hres, h1⟩

/-- Witness of C7: the success of the mount fetch with page 1 of 3. -/
theorem pagination_set_up_by_mount_witness :
    statusOf (run 7 []) 0 = some .pending ∧
      (step (run 7 []) (.resolve 0 samplePage1)).pagination =
        ⟨some ⟨some 3, some 1, some 5⟩, [.onPage]⟩ :=
  ⟨by decide, ((pagination_set_up_by_mount 7 []).2.1 samplePage1 (by decide)).2.1⟩

/-- C8: in every reachable world the current page the pagination control displays is the
`current_page` of the fetch that resolved last, and it displays none while no fetch has
resolved. The log of resolved fetches grows exactly when a pending fetch succeeds, by that
fetch and its response, and at that moment the control shows the page of the response. -/
theorem displayed_page_is_last_resolved (listId : Nat) (events : List Event) :
    ((run listId events).pagination.settings.bind fun s => s.page) =
      (run listId events).resolvedFetches.getLast?.map (fun x => x.2.current_page) ∧
    (∀ e : Event,
      (step (run listId events) e).resolvedFetches = (run listId events).resolvedFetches ∨
      ∃ i r rq, e = .resolve i r ∧ (run listId events).requests[i]? = some rq ∧
        rq.status = .pending ∧ rq.call.isFetch = true ∧
        (step (run listId events) e).resolvedFetches =
          (run listId events).resolvedFetches ++ [(i, r)]) ∧
    (∀ (i : Nat) (r : Page) (rq : Request), (run listId events).requests[i]? = some rq →
      rq.status = .pending → rq.call.isFetch = true →
      (step (run listId events) (.resolve i r)).resolvedFetches =
        (run listId events).resolvedFetches ++ [(i, r)] ∧
      ((step (run listId events) (.resolve i r)).pagination.settings.bind fun s => s.page) =
        some r.current_page) := by
  have hinv := inv_run listId events
  refine ⟨hinv.shown, ?_, ?_⟩
  · intro e
    rcases write_cases hinv e with ⟨_, _, h3⟩ | ⟨i, r, rq, he, hi, hp, hf, _, _, h3, _⟩
    · exact Or.inl h3
    · exact Or.inr ⟨i, r, rq, he, hi, hp, hf, h3⟩
  · intro i r rq hi hp hf
    rcases resolve_cases hinv hi hp r with ⟨_, _, he⟩ | ⟨_, _, he⟩ | ⟨hf', _⟩
    · rw [he]; exact ⟨rfl, rfl⟩
    · rw [he]; exact ⟨rfl, rfl⟩
    · rw [hf] at hf'; cases hf'

/-- Witness of C8: page 2 arrives while page 1 is on display. -/
theorem displayed_page_is_last_resolved_witness :
    (run 7 twoFetchesInFlight).requests[1]? =
        some ⟨.getSubscribers 7 true 10 2, .pending, [.pageDone], []⟩ ∧
      ((step (run 7 twoFetchesInFlight) (.resolve 1 samplePage2)).pagination.settings.bind
        fun s => s.page) = some 2 :=
  ⟨by decide,
    ((displayed_page_is_last_resolved 7 twoFetchesInFlight).2.2 1 samplePage2
      ⟨.getSubscribers 7 true 10 2, .pending, [.pageDone], []⟩ (by decide) rfl rfl).2⟩

/-- C10, as stated, fails: with the fetches of page 2 and of page 3 both pending, the fetch
issued last is request 2, and the success of request 1 writes its response to
`state.subscribers`. -/
theorem stale_fetch_writes :
    lastFetch (run 7 twoFetchesInFlight) = some 2 ∧
      statusOf (run 7 twoFetchesInFlight) 1 = some .pending ∧
      (run 7 twoFetchesInFlight).subscribers = samplePage1.toObject ∧
      (step (run 7 twoFetchesInFlight) (.resolve 1 samplePage2)).subscribers =
        samplePage2.toObject ∧
      (step (run 7 twoFetchesInFlight) (.resolve 1 samplePage2)).setStates =
        (run 7 twoFetchesInFlight).setStates ++ [samplePage2] := by
  decide

/-- C10, amended: `state.subscribers` is written only by the success of a pending fetch of
the table, whether or not it is the one issued last, and every such success writes its
response. -/
theorem page_written_by_a_resolving_fetch (listId : Nat) (events : List Event) :
    (∀ e : Event,
      ((step (run listId events) e).setStates ≠ (run listId events).setStates ∨
        (step (run listId events) e).subscribers ≠ (run listId events).subscribers) →
      ∃ i r rq, e = .resolve i r ∧ (run listId events).requests[i]? = some rq ∧
        rq.status = .pending ∧ rq.call.isFetch = true ∧
        (step (run listId events) e).setStates = (run listId events).setStates ++ [r] ∧
        (step (run listId events) e).subscribers = r.toObject) ∧
    (∀ (i : Nat) (r : Page) (rq : Request), (run listId events).requests[i]? = some rq →
      rq.status = .pending → rq.call.isFetch = true →
      (step (run listId events) (.resolve i r)).setStates =
        (run listId events).setStates ++ [r] ∧
      (step (run listId events) (.resolve i r)).subscribers = r.toObject) := by
  have hinv := inv_run listId events
  constructor
  · intro e hch
    rcases write_cases hinv e with ⟨h1, h2, _⟩ | ⟨i, r, rq, he, hi, hp, hf, h1, h2, _, _⟩
    · rcases hch with hch | hch
      · exact absurd h2 hch
      · exact absurd h1 hch
    · exact ⟨i, r, rq, he, hi, hp, hf, h2, h1⟩
  · intro i r rq hi hp hf
    rcases resolve_cases hinv hi hp r with ⟨_, _, he⟩ | ⟨_, _, he⟩ | ⟨hf', _⟩
    · rw [he]; exact ⟨rfl, rfl⟩
    · rw [he]; exact ⟨rfl, rfl⟩
    · rw [hf] at hf'; cases hf'

/-- Witness of C10, amended: the success of request 1, which is not the fetch issued last. -/
theorem page_written_by_a_resolving_fetch_witness :
    (run 7 twoFetchesInFlight).requests[1]? =
        some ⟨.getSubscribers 7 true 10 2, .pending, [.pageDone], []⟩ ∧
      (step (run 7 twoFetchesInFlight) (.resolve 1 samplePage2)).subscribers =
        samplePage2.toObject :=
  ⟨by decide,
    ((page_written_by_a_resolving_fetch 7 twoFetchesInFlight).2 1 samplePage2
      ⟨.getSubscribers 7 true 10 2, .pending, [.pageDone], []⟩ (by decide) rfl rfl).2⟩

end NewsMaily
